import Mathlib

/-!
Verification development for the LifeLens backend prediction/nudge core.

This file shallowly embeds the prediction and nudge-generation logic of
the LifeLens backend (`backend/app/ai.py`, `backend/app/ml.py`,
`backend/app/crud.py`, `backend/app/main.py`) and proves properties of
that embedding.

Modelling conventions:
* Python floats are modelled as exact rationals (`ℚ`); the probability
  thresholds and table constants used by the code (`0.25`, `0.4`, `0.45`,
  `0.5`, `0.55`, `0.6`, `0.75`, `0.85`) are exact decimals, so the
  branch structure is preserved.
* Timestamps are modelled as seconds-since-epoch naturals.
* Database access is modelled by explicit state passing over an
  `AppState` record; SQL queries become list operations (a filter
  followed by an insertion sort for `ORDER BY timestamp DESC`).
* The external OpenAI chat call in `generate_adaptive_nudge_text` is
  modelled as an oracle argument of type `Except String String`
  (`.ok text` for a successful response, `.error e` for any raised
  exception), together with a boolean for the presence of
  `OPENAI_API_KEY`.  The Python `try/except` becomes a `match` on that
  oracle, which is the catch: the function's return type is `String`,
  never an exception.
-/

namespace LifeLens

/-! ## Data model (`backend/app/models.py`, `backend/app/db.py`) -/

/-- A row of the `users` table: `id`, `name`, `style`
(`created_at` is never read by the core and is elided). -/
structure User where
  id : String
  name : String
  style : String
deriving DecidableEq, Repr

/-- A row of the `habits` table. -/
structure Habit where
  id : String
  user_id : String
  name : String
  target_per_day : Int
deriving DecidableEq, Repr

/-- A row of the `logs` table: owning ids plus the payload
(timestamp in seconds, integer success flag). -/
structure LogEntry where
  user_id : String
  habit_id : String
  timestamp : Nat
  success : Nat
deriving DecidableEq, Repr

/-- The `(timestamp, success)` projection returned by `get_logs`. -/
structure LogRow where
  timestamp : Nat
  success : Nat
deriving DecidableEq, Repr

/-- Per-feature standardization parameters of a stored model
(spec `NormalizationParams`; `scaler_params` column). -/
structure ScalerParams where
  mean : List Float
  scale : List Float

/-- Linear separator parameters of a stored model
(spec `SeparatorParams`; `model_params` column). -/
structure ModelParams where
  weights : List Float
  bias : Float

/-- A row of the `models` table (spec `ModelRecord`).  The textual
serialization (`str(...)` in `crud.save_model_spec`, `json.dumps` in
`db.save_model`) is modelled as storing the parameter records
themselves; the claims under study never depend on the wire format. -/
structure ModelRec where
  scaler : ScalerParams
  model : ModelParams
  last_trained : Nat

/-- The persistent store the core reads and writes, passed explicitly. -/
structure AppState where
  users : List User
  habits : List Habit
  logs : List LogEntry
  models : List (String × ModelRec)

/-! ## Storage helpers (`backend/app/crud.py`, `backend/app/db.py`) -/

/-- Embeds `crud.get_user` / `db.get_user`: first user row with the given id. -/
def get_user (st : AppState) (user_id : String) : Option User :=
  st.users.find? (fun u => u.id == user_id)

/-- Embeds `crud.get_habit`: first habit row with the given id. -/
def get_habit (st : AppState) (habit_id : String) : Option Habit :=
  st.habits.find? (fun h => h.id == habit_id)

/-- Embeds `crud.list_habits`: all habits belonging to the user. -/
def list_habits (st : AppState) (user_id : String) : List Habit :=
  st.habits.filter (fun h => h.user_id == user_id)

/-- Insert a log into a list kept in descending timestamp order. -/
def insertByTsDesc (x : LogEntry) : List LogEntry → List LogEntry
  | [] => [x]
  | y :: ys => if y.timestamp ≤ x.timestamp then x :: y :: ys else y :: insertByTsDesc x ys

/-- Embeds `ORDER BY timestamp DESC` as an insertion sort. -/
def sortByTsDesc (l : List LogEntry) : List LogEntry :=
  l.foldr insertByTsDesc []

/-- Embeds `crud.get_logs` / `db.get_logs`: rows for the (user, habit) pair in
descending timestamp order, truncated to `limit`, projected to
`(timestamp, success)`. -/
def get_logs (st : AppState) (user_id habit_id : String) (limit : Nat) : List LogRow :=
  ((sortByTsDesc (st.logs.filter
      (fun l => l.user_id == user_id && l.habit_id == habit_id))).take limit).map
    (fun l => { timestamp := l.timestamp, success := l.success })

/-- Embeds `crud.load_model_spec` / `db.load_model_spec`: the stored model row
for the user, absent when no row exists. -/
def load_model_spec (st : AppState) (user_id : String) : Option ModelRec :=
  (st.models.find? (fun m => m.1 == user_id)).map Prod.snd

/-- Embeds `crud.save_model_spec`: upsert of the user-keyed singleton model row
(update in place when a row exists, append otherwise). -/
def save_model_spec (st : AppState) (user_id : String)
    (scaler : ScalerParams) (model : ModelParams) (now : Nat) : AppState :=
  if (st.models.find? (fun m => m.1 == user_id)).isSome then
    { st with models :=
        st.models.map (fun m => if m.1 == user_id then (m.1, ⟨scaler, model, now⟩) else m) }
  else
    { st with models := st.models ++ [(user_id, ⟨scaler, model, now⟩)] }

/-! ## AI helpers (`backend/app/ai.py`) -/

/-- Embeds `ai.make_predictor`: the predictor loader.  The source is a stub that
returns `None` for every user id (its docstring: "For now, returns None
(no trained model), so main uses fallback heuristics").  The store is
passed for faithful state passing, and ignored exactly as the source
ignores the database. -/
def make_predictor (_st : AppState) (_user_id : String) : Option (List ℚ → ℚ) :=
  none

/-- The tone fragment chosen by `ai._heuristic_nudge` from the
probability tier (`p > 0.75`, `p > 0.45`, else). -/
def heuristicTip (habit_name : String) (p : ℚ) : String :=
  if p > 0.75 then
    "You\x27re in a great rhythm — keep your streak for \x27" ++ habit_name ++
      "\x27. Try celebrating a small win!"
  else if p > 0.45 then
    "Steady progress on \x27" ++ habit_name ++ "\x27. A quick scheduled reminder could help."
  else
    "This might slip today — make \x27" ++ habit_name ++ "\x27 tiny (1 minute) to get started."

/-- Embeds `ai._heuristic_nudge`: tone fragment plus a style-specific closing
clause (`mentor` and `challenger` add a clause; every other style,
including the default `encourager` and unrecognized tags, returns the
tip alone). -/
def heuristicNudge (habit_name : String) (p : ℚ) (style : String) : String :=
  let tip := heuristicTip habit_name p
  if style == "mentor" then
    tip ++ " (mentor tip: plan a 5-minute action and reflect afterwards.)"
  else if style == "challenger" then
    tip ++ " (challenge: set a 10-minute timer and go.)"
  else
    tip

/-- Embeds `ai.generate_adaptive_nudge_text`: when the API key is present the
external chat call is attempted; any exception is caught and the local
heuristic text plus a fallback annotation is returned; without a key the
heuristic text is returned directly.  `ext` is the oracle for the
external call. -/
def generate_adaptive_nudge_text (keyPresent : Bool) (ext : Except String String)
    (habit_name : String) (probability : ℚ) (style : String) : String :=
  if keyPresent then
    match ext with
    | .ok text => text.trim
    | .error e =>
        heuristicNudge habit_name probability style ++ " (fallback; error: " ++ e ++ ")"
  else
    heuristicNudge habit_name probability style

/-- Embeds `main.generate_persona_nudge` (the `db.py`-based prototype): tone
fragment by the same tiers, then a persona-specific micro-intervention
(`storyteller`, `musician`, else the neutral micro-task). -/
def generate_persona_nudge (persona habit_name : String) (p : ℚ) : String :=
  let tone :=
    if p > 0.75 then "You have strong momentum — keep the streak alive!"
    else if p > 0.45 then "Good progress — a small, focused action will help."
    else "This one might slip — try a tiny, doable version now."
  if persona == "storyteller" then
    tone ++ " Write one sentence describing a scene where your " ++ habit_name ++ " succeeds."
  else if persona == "musician" then
    tone ++ " Play a 60-second riff or pattern related to \x27" ++ habit_name ++
      "\x27. Keep it simple and repeat it 3 times."
  else
    tone ++ " Try a 5-minute focused session on \x27" ++ habit_name ++ "\x27."

/-! ## Prediction endpoint (`backend/app/ml.py`, `predict`) -/

/-- The two distinct 404 conditions of the `predict` endpoint
(`HTTPException(404, "user not found")` / `(404, "habit not found")`). -/
inductive PredictError where
  | userNotFound
  | habitNotFound
deriving DecidableEq, Repr

/-- The `NudgeRes` response body of the `predict` endpoint. -/
structure NudgeOut where
  message : String
  probability : ℚ
  style_used : String
deriving DecidableEq, Repr

/-- The list `successes = [l.success for l in reversed(logs)]`: the
success flags of the descending-ordered log rows, reversed back to
chronological (oldest-first) order. -/
def successesOf (logs : List LogRow) : List Nat :=
  (logs.map (fun l => l.success)).reverse

/-- The streak loop of `predict`: starting from the FRONT of the
chronological `successes` list, count consecutive values equal to `1`,
stopping at the first other value. -/
def streakLoop : List Nat → Nat
  | [] => 0
  | s :: rest => if s = 1 then streakLoop rest + 1 else 0

/-- Embeds `mean_success = float(sum(successes) / len(successes)) if successes
else 0.0` (the guard is from `ml.py`; the list is non-empty whenever the
code reaches this line). -/
def meanSuccess (successes : List Nat) : ℚ :=
  if successes.length = 0 then 0 else (successes.sum : ℚ) / successes.length

/-- Embeds `recency_hours`: elapsed seconds between now and the most recent
log's timestamp, divided by 3600. -/
def recencyHours (now ts : Nat) : ℚ :=
  ((now : ℚ) - (ts : ℚ)) / 3600

/-- The Fallback Heuristic Engine rule table, written from the spec
contract `heuristic(mean_success, streak) -> probability` (spec section
4.4); the endpoint inlines the same rules, and the correspondence is
proved below. -/
def heuristic (mean_success : ℚ) (streak : Nat) : ℚ :=
  if mean_success > 0.6 ∧ streak ≥ 2 then 0.85
  else if mean_success > 0.4 then 0.55
  else 0.25

/-- The cold-start message of the `ml.py` predict endpoint. -/
def coldStartMessage (habit_name : String) : String :=
  "Let’s begin building your \x27" ++ habit_name ++
    "\x27 routine — start small and be consistent."

/-- The `/api/predict` endpoint of `backend/app/ml.py`: look up user and
habit (404 on either miss), read up to 200 logs, return the fixed 0.5
cold-start response when there are none, otherwise compute the
streak/mean/recency features, use a trained predictor when the loader
returns one, else the inline fallback rule table, and compose the nudge
message.  `keyPresent`/`ext` are threaded to the nudge generator. -/
def predict (keyPresent : Bool) (ext : Except String String)
    (st : AppState) (user_id habit_id : String) (now : Nat) :
    Except PredictError NudgeOut :=
  match get_user st user_id with
  | none => .error .userNotFound
  | some user =>
    match get_habit st habit_id with
    | none => .error .habitNotFound
    | some habit =>
      match get_logs st user_id habit_id 200 with
      | [] =>
          .ok { message := coldStartMessage habit.name
                probability := 0.5
                style_used := user.style }
      | first :: rest =>
          let logs := first :: rest
          let successes := successesOf logs
          let streak := streakLoop successes
          let mean_success := meanSuccess successes
          let recency_hours := recencyHours now first.timestamp
          let p : ℚ :=
            match make_predictor st user.id with
            | some f => f [(streak : ℚ), mean_success, recency_hours]
            | none =>
                if mean_success > 0.6 ∧ streak ≥ 2 then 0.85
                else if mean_success > 0.4 then 0.55
                else 0.25
          .ok { message := generate_adaptive_nudge_text keyPresent ext habit.name p user.style
                probability := p
                style_used := user.style }

/-- The probability of a successful `predict` response, when any. -/
def predictProbability (r : Except PredictError NudgeOut) : Option ℚ :=
  match r with
  | .ok res => some res.probability
  | .error _ => none

/-! ## Model trainer (spec sections 4.1 and 4.2)

The endpoints schedule `ml.train_user_model` in the background
(`main.log_event`, `main.create_user`), but the definition of
`train_user_model` is not present under `src/` (the file `ml.py` holds a
second copy of the HTTP layer instead).  The trainer is therefore
modelled from the spec below. -/

/-- Modelled from the spec: a `FeatureVector` together with its
`SupervisionLabel` (spec section 3), one row per habit with activity in
the trailing 14-day training window. -/
structure TrainRow where
  streak : Nat
  mean_success : ℚ
  recency_hours : ℚ
  label : Bool
deriving DecidableEq, Repr

/-- Modelled from the spec: the trailing streak of section 4.1, the
count of consecutive successes scanned from the most recent event
backward, stopping at the first failure. -/
def trailingStreak (successes : List Nat) : Nat :=
  streakLoop successes.reverse

/-- Modelled from the spec: a habit's events inside the trailing 14-day
window from `now`, in chronological order. -/
def chronWindowEvents (st : AppState) (user_id habit_id : String) (now : Nat) : List LogRow :=
  (((sortByTsDesc (st.logs.filter
        (fun l => l.user_id == user_id && l.habit_id == habit_id))).map
      (fun l => ({ timestamp := l.timestamp, success := l.success } : LogRow))).reverse).filter
    (fun e => now ≤ e.timestamp + 14 * 86400)

/-- Modelled from the spec: the training-window extraction of section
4.1 — zero or one feature/label row per habit, habits with no event in
the window contribute nothing, and the label is whether the most recent
event lies within 24 hours of `now`. -/
def extract_training_rows (st : AppState) (user_id : String) (now : Nat) : List TrainRow :=
  (list_habits st user_id).filterMap (fun h =>
    let evs := chronWindowEvents st user_id h.id now
    match evs.getLast? with
    | none => none
    | some lastEv =>
        let successes := evs.map (fun e => e.success)
        some { streak := trailingStreak successes
               mean_success := meanSuccess successes
               recency_hours := recencyHours now lastEv.timestamp
               label := now ≤ lastEv.timestamp + 86400 })

/-- Rational-to-float conversion used only to feed the numeric fitting
routine; never inspected by any proof. -/
def ratToFloat (q : ℚ) : Float :=
  Float.ofInt q.num / Float.ofNat q.den

/-- The numeric feature triple of a training row. -/
def rowFeatures (r : TrainRow) : List Float :=
  [Float.ofNat r.streak, ratToFloat r.mean_success, ratToFloat r.recency_hours]

/-- Mean of a list of floats. -/
def fmean (xs : List Float) : Float :=
  xs.foldl (fun a x => a + x) 0 / Float.ofNat xs.length

/-- Population standard deviation of a list of floats. -/
def fstd (xs : List Float) : Float :=
  let m := fmean xs
  Float.sqrt (xs.foldl (fun a x => a + (x - m) * (x - m)) 0 / Float.ofNat xs.length)

/-- Logistic function over floats. -/
def sigmoidF (z : Float) : Float :=
  1 / (1 + Float.exp (-z))

/-- Dot product of two float lists. -/
def dotF : List Float → List Float → Float
  | [], _ => 0
  | _, [] => 0
  | x :: xs, y :: ys => x * y + dotF xs ys

/-- One batch gradient-descent step on the binary cross-entropy loss. -/
def gdStep (lr : Float) (rows : List (List Float × Float))
    (w : List Float) (b : Float) : List Float × Float :=
  let n := Float.ofNat rows.length
  let grads := rows.foldl
    (fun (acc : List Float × Float) xy =>
      let err := sigmoidF (dotF w xy.1 + b) - xy.2
      (List.zipWith (fun g xi => g + err * xi) acc.1 xy.1, acc.2 + err))
    (w.map (fun _ => (0 : Float)), 0)
  (List.zipWith (fun wi gi => wi - lr * gi / n) w grads.1, b - lr * grads.2 / n)

/-- Iterate gradient descent a bounded number of times. -/
def gdIter (lr : Float) (rows : List (List Float × Float)) :
    Nat → List Float × Float → List Float × Float
  | 0, wb => wb
  | k + 1, wb => gdIter lr rows k (gdStep lr rows wb.1 wb.2)

/-- Modelled from the spec: the fitting body of section 4.2 — per-feature
mean and standard deviation (substituting 1.0 for a zero standard
deviation), standardization of all rows, then a bounded 200-iteration
gradient descent minimizing binary cross-entropy. -/
def fitModel (rows : List TrainRow) : ScalerParams × ModelParams :=
  let feats := rows.map rowFeatures
  let col := fun (i : Nat) => feats.map (fun f => f.getD i 0)
  let means := [fmean (col 0), fmean (col 1), fmean (col 2)]
  let scales := (List.range 3).map (fun i =>
    let s := fstd (col i)
    if s == 0 then (1 : Float) else s)
  let standardize := fun (f : List Float) =>
    List.zipWith (fun x ms => (x - ms.1) / ms.2) f (means.zip scales)
  let data := rows.map (fun r =>
    (standardize (rowFeatures r), if r.label then (1 : Float) else 0))
  let wb := gdIter 0.1 data 200 ([0, 0, 0], 0)
  (⟨means, scales⟩, ⟨wb.1, wb.2⟩)

/-- The minimum number of training rows (spec: `min_samples`, default 5). -/
def min_samples : Nat := 5

/-- Modelled from the spec: `train_user_model(user_id) -> bool` of
section 4.2 — extract the training rows; with fewer than `min_samples`
rows return false and write nothing; otherwise fit and persist the
model record via `save_model_spec` and return true. -/
def train_user_model (st : AppState) (user_id : String) (now : Nat) : Bool × AppState :=
  let rows := extract_training_rows st user_id now
  if rows.length < min_samples then
    (false, st)
  else
    let fitted := fitModel rows
    (true, save_model_spec st user_id fitted.1 fitted.2 now)

/-! ## Pet state partial update (`crud.update_pet_state`)

The ORM entity is modelled as a record of dynamically-typed attribute
values (`PVal`), matching Python's untyped `setattr`.  `hasattr` is
modelled over the mapped columns of `models.PetState`; the ORM
relationship attribute and SQLAlchemy internals are elided.  The session
fetch (`get_pet_state`) and `commit`/`refresh` persistence plumbing are
elided: the function takes the fetched entity and returns the updated
entity together with the `changed` flag. -/

/-- A dynamically-typed Python attribute value: string, integer, or
timestamp. -/
inductive PVal where
  | vs (s : String)
  | vi (n : Int)
  | vt (t : Nat)
deriving DecidableEq, Repr

/-- The `pet_states` row as a Python object: every attribute holds an
arbitrary value, as `setattr` enforces no types. -/
structure PetState where
  user_id : PVal
  mood : PVal
  hunger : PVal
  energy : PVal
  affection : PVal
  last_updated : PVal
deriving DecidableEq, Repr

/-- The mapped column attributes of `models.PetState`. -/
def petAttrNames : List String :=
  ["user_id", "mood", "hunger", "energy", "affection", "last_updated"]

/-- Embeds `hasattr(pet, key)` over the mapped columns. -/
def hasPetAttr (k : String) : Bool :=
  petAttrNames.contains k

/-- Embeds `getattr(pet, key)`, absent for unknown attributes. -/
def getPetAttr (p : PetState) (k : String) : Option PVal :=
  if k = "user_id" then some p.user_id
  else if k = "mood" then some p.mood
  else if k = "hunger" then some p.hunger
  else if k = "energy" then some p.energy
  else if k = "affection" then some p.affection
  else if k = "last_updated" then some p.last_updated
  else none

/-- Embeds `setattr(pet, key, value)`; a no-op for unknown attributes (the
caller only invokes it after `hasattr`). -/
def setPetAttr (p : PetState) (k : String) (v : PVal) : PetState :=
  if k = "user_id" then { p with user_id := v }
  else if k = "mood" then { p with mood := v }
  else if k = "hunger" then { p with hunger := v }
  else if k = "energy" then { p with energy := v }
  else if k = "affection" then { p with affection := v }
  else if k = "last_updated" then { p with last_updated := v }
  else p

/-- The `for key, value in updates.items()` loop of
`crud.update_pet_state`: assign when the attribute exists and the value
is not `None`, tracking whether anything was assigned. -/
def applyUpdates : PetState × Bool → List (String × Option PVal) → PetState × Bool
  | acc, [] => acc
  | acc, (_, none) :: rest => applyUpdates acc rest
  | acc, (k, some v) :: rest =>
      if hasPetAttr k then applyUpdates (setPetAttr acc.1 k v, true) rest
      else applyUpdates acc rest

/-- Embeds `crud.update_pet_state`: run the update loop and, when anything
changed, refresh `last_updated` to now. -/
def update_pet_state (pet : PetState) (updates : List (String × Option PVal))
    (now : Nat) : PetState × Bool :=
  let r := applyUpdates (pet, false) updates
  if r.2 then ({ r.1 with last_updated := PVal.vt now }, true) else r

/-! ## Helper lemmas for the pet-state update -/

/-- Evaluation of `setPetAttr` at the literal name `user_id`. -/
theorem setPetAttr_user_id (p : PetState) (v : PVal) :
    setPetAttr p "user_id" v = { p with user_id := v } := rfl

/-- Evaluation of `setPetAttr` at the literal name `mood`. -/
theorem setPetAttr_mood (p : PetState) (v : PVal) :
    setPetAttr p "mood" v = { p with mood := v } := rfl

/-- Evaluation of `setPetAttr` at the literal name `hunger`. -/
theorem setPetAttr_hunger (p : PetState) (v : PVal) :
    setPetAttr p "hunger" v = { p with hunger := v } := rfl

/-- Evaluation of `setPetAttr` at the literal name `energy`. -/
theorem setPetAttr_energy (p : PetState) (v : PVal) :
    setPetAttr p "energy" v = { p with energy := v } := rfl

/-- Evaluation of `setPetAttr` at the literal name `affection`. -/
theorem setPetAttr_affection (p : PetState) (v : PVal) :
    setPetAttr p "affection" v = { p with affection := v } := rfl

/-- Evaluation of `setPetAttr` at the literal name `last_updated`. -/
theorem setPetAttr_last_updated (p : PetState) (v : PVal) :
    setPetAttr p "last_updated" v = { p with last_updated := v } := rfl

/-- An existing attribute name is one of the six mapped columns. -/
theorem hasPetAttr_cases (k : String) (h : hasPetAttr k = true) :
    k = "user_id" ∨ k = "mood" ∨ k = "hunger" ∨ k = "energy" ∨ k = "affection"
      ∨ k = "last_updated" := by
  simp [hasPetAttr, petAttrNames, List.contains, List.elem_eq_mem] at h
  tauto

/-- Setting one attribute leaves every other attribute unchanged. -/
theorem getPetAttr_update_ne (p : PetState) (k a : String) (v : PVal)
    (hk : hasPetAttr k = true) (h : k ≠ a) :
    getPetAttr (setPetAttr p k v) a = getPetAttr p a := by
  rcases hasPetAttr_cases k hk with h1 | h1 | h1 | h1 | h1 | h1 <;> subst h1
  · rw [setPetAttr_user_id]; unfold getPetAttr; split_ifs <;> simp_all
  · rw [setPetAttr_mood]; unfold getPetAttr; split_ifs <;> simp_all
  · rw [setPetAttr_hunger]; unfold getPetAttr; split_ifs <;> simp_all
  · rw [setPetAttr_energy]; unfold getPetAttr; split_ifs <;> simp_all
  · rw [setPetAttr_affection]; unfold getPetAttr; split_ifs <;> simp_all
  · rw [setPetAttr_last_updated]; unfold getPetAttr; split_ifs <;> simp_all

/-- Setting an existing attribute makes it hold the assigned value. -/
theorem getPetAttr_update_self (p : PetState) (k : String) (v : PVal)
    (h : hasPetAttr k = true) :
    getPetAttr (setPetAttr p k v) k = some v := by
  rcases hasPetAttr_cases k h with h1 | h1 | h1 | h1 | h1 | h1 <;> subst h1 <;> rfl

/-- Refreshing `last_updated` leaves every other attribute unchanged. -/
theorem getPetAttr_set_last (p : PetState) (x : PVal) (a : String) (h : a ≠ "last_updated") :
    getPetAttr { p with last_updated := x } a = getPetAttr p a := by
  unfold getPetAttr; split_ifs <;> simp_all

/-- Reading `last_updated` yields the field. -/
theorem getPetAttr_last (p : PetState) :
    getPetAttr p "last_updated" = some p.last_updated := rfl

/-- The changed flag after the update loop: true exactly when some entry
names an existing attribute with a non-`None` value. -/
theorem applyUpdates_changed (l : List (String × Option PVal)) (p : PetState) (c : Bool) :
    (applyUpdates (p, c) l).2 = (c || l.any (fun kv => hasPetAttr kv.1 && kv.2.isSome)) := by
  induction l generalizing p c with
  | nil => simp [applyUpdates]
  | cons kv rest ih =>
    obtain ⟨k, v⟩ := kv
    cases v with
    | none => simp [applyUpdates, ih]
    | some w =>
      by_cases hk : hasPetAttr k
      · simp [applyUpdates, hk, ih]
      · simp [applyUpdates, hk, ih]

/-- Frame property of the update loop: an attribute named by no
effective entry is unchanged. -/
theorem applyUpdates_frame (l : List (String × Option PVal)) (p : PetState) (c : Bool)
    (a : String) (h : ∀ kv ∈ l, kv.1 = a → kv.2 = none) :
    getPetAttr (applyUpdates (p, c) l).1 a = getPetAttr p a := by
  induction l generalizing p c with
  | nil => rfl
  | cons kv rest ih =>
    obtain ⟨k, v⟩ := kv
    have hrest : ∀ kv ∈ rest, kv.1 = a → kv.2 = none := fun kv hm => h kv (by simp [hm])
    cases v with
    | none => simpa [applyUpdates] using ih p c hrest
    | some w =>
      have hk : k ≠ a := by
        intro he
        have := h (k, some w) (by simp) he
        simp at this
      by_cases hh : hasPetAttr k
      · rw [show applyUpdates (p, c) ((k, some w) :: rest)
            = applyUpdates (setPetAttr p k w, true) rest by simp [applyUpdates, hh]]
        rw [ih (setPetAttr p k w) true hrest]
        exact getPetAttr_update_ne p k a w hh hk
      · simpa [applyUpdates, hh] using ih p c hrest

/-- A loop over only ineffective entries is the identity. -/
theorem applyUpdates_id (l : List (String × Option PVal)) (p : PetState) (c : Bool)
    (h : ∀ kv ∈ l, hasPetAttr kv.1 = false ∨ kv.2 = none) :
    applyUpdates (p, c) l = (p, c) := by
  induction l with
  | nil => rfl
  | cons kv rest ih =>
    obtain ⟨k, v⟩ := kv
    have hrest : ∀ kv ∈ rest, hasPetAttr kv.1 = false ∨ kv.2 = none :=
      fun kv hm => h kv (by simp [hm])
    cases v with
    | none => simpa [applyUpdates] using ih hrest
    | some w =>
      have hk : hasPetAttr k = false := by
        rcases h (k, some w) (by simp) with hf | hn
        · exact hf
        · simp at hn
      simpa [applyUpdates, hk] using ih hrest

/-- The update loop splits over list append. -/
theorem applyUpdates_append (l₁ l₂ : List (String × Option PVal)) (st : PetState × Bool) :
    applyUpdates st (l₁ ++ l₂) = applyUpdates (applyUpdates st l₁) l₂ := by
  induction l₁ generalizing st with
  | nil => rfl
  | cons kv rest ih =>
    obtain ⟨k, v⟩ := kv
    cases v with
    | none => simp [applyUpdates, ih]
    | some w =>
      by_cases hh : hasPetAttr k <;> simp [applyUpdates, hh, ih]

/-- After assigning an existing attribute, a remaining loop with no
effective entry for that attribute leaves the assigned value in place. -/
theorem applyUpdates_assign (l : List (String × Option PVal)) (p : PetState) (c : Bool)
    (k : String) (v : PVal) (hk : hasPetAttr k = true)
    (hno : ∀ kv ∈ l, kv.1 = k → kv.2 = none) :
    getPetAttr (applyUpdates (setPetAttr p k v, true) l).1 k = some v := by
  rw [applyUpdates_frame l (setPetAttr p k v) true k hno]
  exact getPetAttr_update_self p k v hk

/-! ## Concrete states used by witnesses and counterexamples -/

/-- One user with one logged habit (chronological successes 1,1,1) and
one habit with no logs. -/
def stC1 : AppState :=
  { users := [⟨"u1", "Ann", "encourager"⟩]
    habits := [⟨"h1", "u1", "Running", 1⟩, ⟨"h2", "u1", "Reading", 1⟩]
    logs := [⟨"u1", "h1", 10, 1⟩, ⟨"u1", "h1", 20, 1⟩, ⟨"u1", "h1", 30, 1⟩]
    models := [] }

/-- A store holding a model record for user `u1`. -/
def stC2 : AppState :=
  { users := [⟨"u1", "Ann", "encourager"⟩]
    habits := []
    logs := []
    models := [("u1", ⟨⟨[0, 0, 0], [1, 1, 1]⟩, ⟨[0, 0, 0], 0⟩, 0⟩)] }

/-- A store with a prior model record for `u1` and only two logs, so the
training-window extraction yields fewer than five rows. -/
def stC3 : AppState :=
  { users := [⟨"u1", "Ann", "encourager"⟩]
    habits := [⟨"h1", "u1", "Running", 1⟩]
    logs := [⟨"u1", "h1", 10, 1⟩, ⟨"u1", "h1", 20, 1⟩]
    models := [("u1", ⟨⟨[0, 0, 0], [1, 1, 1]⟩, ⟨[0, 0, 0], 0⟩, 0⟩)] }

/-- A store whose single habit has the chronological success history
1, 1, 0, 1 (stored rows are returned newest-first). -/
def stC6 : AppState :=
  { users := [⟨"u1", "Ann", "encourager"⟩]
    habits := [⟨"h1", "u1", "Running", 1⟩]
    logs := [⟨"u1", "h1", 10, 1⟩, ⟨"u1", "h1", 20, 1⟩, ⟨"u1", "h1", 30, 0⟩, ⟨"u1", "h1", 40, 1⟩]
    models := [] }

/-- A store with one user and no habits. -/
def stC7 : AppState :=
  { users := [⟨"u1", "Ann", "encourager"⟩], habits := [], logs := [], models := [] }

/-- A store with one user and one habit that has no logs. -/
def stC9 : AppState :=
  { users := [⟨"u1", "Ann", "encourager"⟩], habits := [⟨"h1", "u1", "Running", 1⟩],
    logs := [], models := [] }

/-- The cold-start response produced by `predict` on `stC9`. -/
def rC9 : NudgeOut := ⟨coldStartMessage "Running", 0.5, "encourager"⟩

/-- A concrete pet entity. -/
def petW : PetState := ⟨.vs "u1", .vs "happy", .vi 50, .vi 50, .vi 50, .vt 0⟩

/-- A concrete updates dictionary: one effective assignment, one
unrecognized key, one `None` value. -/
def updatesW : List (String × Option PVal) :=
  [("hunger", some (.vi 10)), ("bogus", some (.vs "x")), ("mood", none)]

/-! ## Claim theorems -/

/-- C1: for every predict call on an existing user and habit for which no
trained predictor is returned, the probability of the response is given
by the fallback rule table `heuristic` (0.85 when mean_success > 0.6 and
streak >= 2; else 0.55 when mean_success > 0.4; else 0.25) applied to
the features computed from the returned logs, and with zero logged
events the endpoint bypasses feature computation and returns exactly
0.5. -/
theorem C1_predict_fallback_rule_table (keyPresent : Bool) (ext : Except String String)
    (st : AppState) (uid hid : String) (now : Nat) (user : User) (habit : Habit)
    (hu : get_user st uid = some user) (hh : get_habit st hid = some habit)
    (hmp : make_predictor st user.id = none) :
    predictProbability (predict keyPresent ext st uid hid now) =
      some (match get_logs st uid hid 200 with
            | [] => 0.5
            | logs => heuristic (meanSuccess (successesOf logs)) (streakLoop (successesOf logs))) := by
  unfold predict
  rw [hu, hh]
  cases hl : get_logs st uid hid 200 with
  | nil => simp [predictProbability]
  | cons first rest =>
    simp only [predictProbability, hmp]
    rfl

/-- Witness for C1: on a concrete store, the habit with chronological
successes 1,1,1 yields probability 0.85 and the habit with no logs
yields exactly 0.5. -/
theorem C1_predict_fallback_witness :
    predictProbability (predict false (.error "e") stC1 "u1" "h1" 100) = some 0.85
    ∧ predictProbability (predict false (.error "e") stC1 "u1" "h2" 100) = some 0.5 := by
  constructor
  · rw [C1_predict_fallback_rule_table false (.error "e") stC1 "u1" "h1" 100
      ⟨"u1", "Ann", "encourager"⟩ ⟨"h1", "u1", "Running", 1⟩ rfl rfl rfl]
    norm_num [get_logs, stC1, sortByTsDesc, insertByTsDesc, successesOf, meanSuccess,
      streakLoop, heuristic, List.filter]
  · rw [C1_predict_fallback_rule_table false (.error "e") stC1 "u1" "h2" 100
      ⟨"u1", "Ann", "encourager"⟩ ⟨"h2", "u1", "Reading", 1⟩ rfl rfl rfl]
    norm_num [get_logs, stC1, sortByTsDesc, insertByTsDesc, List.filter,
      (show (("h1" : String) == "h2") = false from by decide)]

/-- Counterexample for C2: a store holds a ModelRecord for user u1, yet
the predictor loader `make_predictor` still returns absent, so the
loader does not return a predictor exactly when a record is present. -/
theorem C2_loader_stub_counterexample :
    (load_model_spec stC2 "u1").isSome = true ∧ make_predictor stC2 "u1" = none :=
  ⟨rfl, rfl⟩

/-- C2 (amended): the predictor loader `make_predictor` returns absent
for every user id regardless of the store contents (it is a stub), so no
standardize-dot-sigmoid predictor is ever produced; separately,
`load_model_spec` returns absent exactly when no model row is stored for
the user. -/
theorem C2_loader_always_absent (st : AppState) (uid : String) :
    make_predictor st uid = none
    ∧ (load_model_spec st uid = none ↔ st.models.find? (fun m => m.1 == uid) = none) := by
  refine ⟨rfl, ?_⟩
  unfold load_model_spec
  exact Option.map_eq_none'

/-- C3: when the training-window extraction yields fewer than
`min_samples` (5) rows, `train_user_model` returns false and performs no
write, leaving any previously stored ModelRecord unchanged. -/
theorem C3_train_below_min_samples_no_write (st : AppState) (uid : String) (now : Nat)
    (h : (extract_training_rows st uid now).length < min_samples) :
    train_user_model st uid now = (false, st)
    ∧ load_model_spec (train_user_model st uid now).2 uid = load_model_spec st uid := by
  have h1 : train_user_model st uid now = (false, st) := by
    unfold train_user_model
    rw [if_pos h]
  exact ⟨h1, by rw [h1]⟩

/-- Witness for C3: a user with two logs (fewer than five extracted
rows) and a previously stored ModelRecord; training returns false and
the whole store, the prior record included, is unchanged. -/
theorem C3_train_no_write_witness : train_user_model stC3 "u1" 1000 = (false, stC3) :=
  (C3_train_below_min_samples_no_write stC3 "u1" 1000 (by decide)).1

/-- C4: with the API key present, every failure of the external
text-generation call is caught and the composer returns the
deterministic local heuristic text followed by a fallback annotation
naming the error; without a key it returns the heuristic text directly.
The return type is `String`: the external failure is never propagated. -/
theorem C4_nudge_external_failure_fallback (habit_name : String) (p : ℚ) (style e : String)
    (ext : Except String String) :
    generate_adaptive_nudge_text true (.error e) habit_name p style =
      heuristicNudge habit_name p style ++ " (fallback; error: " ++ e ++ ")"
    ∧ generate_adaptive_nudge_text false ext habit_name p style =
        heuristicNudge habit_name p style :=
  ⟨rfl, rfl⟩

/-- C5: the composed nudge buckets the probability into exactly three
tiers at p > 0.75 and p > 0.45 (two probabilities in the same tier give
the same message); a style that is not `mentor`/`challenger` produces
the default `encourager` composition, and a persona that is not
`storyteller`/`musician` produces the `neutral` composition, so
composition is total over all style strings; at 0.9 the `challenger`
message is the high tone fragment plus the timed-challenge clause, and
`unknown_style` matches `encourager`. -/
theorem C5_nudge_tiers_and_style_totality (habit_name style : String) (p q : ℚ)
    (htier : (0.75 < p ∧ 0.75 < q) ∨ (p ≤ 0.75 ∧ 0.45 < p ∧ q ≤ 0.75 ∧ 0.45 < q)
      ∨ (p ≤ 0.45 ∧ q ≤ 0.45))
    (hstyle1 : style ≠ "mentor") (hstyle2 : style ≠ "challenger")
    (hper1 : style ≠ "storyteller") (hper2 : style ≠ "musician") :
    heuristicNudge habit_name p style = heuristicNudge habit_name q style
    ∧ heuristicNudge habit_name p style = heuristicNudge habit_name p "encourager"
    ∧ generate_persona_nudge style habit_name p = generate_persona_nudge "neutral" habit_name p
    ∧ heuristicNudge "Running" 0.9 "challenger" =
        heuristicTip "Running" 0.9 ++ " (challenge: set a 10-minute timer and go.)"
    ∧ heuristicNudge "Running" 0.9 "unknown_style" = heuristicNudge "Running" 0.9 "encourager" := by
  refine ⟨?_, ?_, ?_, ?_, ?_⟩
  · unfold heuristicNudge heuristicTip
    rcases htier with ⟨h1, h2⟩ | ⟨h1, h2, h3, h4⟩ | ⟨h1, h2⟩ <;>
      split_ifs <;> first | rfl | (exfalso; linarith)
  · simp [heuristicNudge, beq_iff_eq, hstyle1, hstyle2]
  · simp [generate_persona_nudge, beq_iff_eq, hper1, hper2]
  · simp [heuristicNudge]
  · simp [heuristicNudge]

/-- Witness for C5: 0.9 and 0.8 lie in the same tier, so the composed
messages for the unrecognized style `unknown_style` agree. -/
theorem C5_style_totality_witness :
    heuristicNudge "Running" 0.9 "unknown_style" = heuristicNudge "Running" 0.8 "unknown_style" :=
  (C5_nudge_tiers_and_style_totality "Running" "unknown_style" 0.9 0.8
    (Or.inl ⟨by norm_num, by norm_num⟩) (by decide) (by decide) (by decide) (by decide)).1

/-- C6 evaluation: the streak the endpoint computes is the run of
consecutive successes at the OLDEST end of the chronological history
(the code reverses the newest-first rows to chronological order and
counts from the front).  On chronological successes 1,1,0,1 it yields 2
where the claim requires 1; on 1,0 (most recent event a failure) it
yields 1 where the claim requires 0; it agrees on 1,1,1 (3) and on a
single failure (0).  The spec-modelled trailing streak on 1,1,0,1 is 1,
and on the concrete store the divergence reaches the endpoint: the
returned probability is 0.85 (code streak 2) where trailing-streak
semantics would give 0.55. -/
theorem C6_streak_leading_run_evaluation :
    streakLoop (successesOf [⟨40, 1⟩, ⟨30, 0⟩, ⟨20, 1⟩, ⟨10, 1⟩]) = 2
    ∧ streakLoop (successesOf [⟨30, 1⟩, ⟨20, 1⟩, ⟨10, 1⟩]) = 3
    ∧ streakLoop (successesOf [⟨10, 0⟩]) = 0
    ∧ streakLoop (successesOf [⟨20, 0⟩, ⟨10, 1⟩]) = 1
    ∧ trailingStreak [1, 1, 0, 1] = 1
    ∧ predictProbability (predict false (.error "e") stC6 "u1" "h1" 100) = some 0.85 := by
  refine ⟨by decide, by decide, by decide, by decide, by decide, ?_⟩
  norm_num [predict, predictProbability, stC6, get_user, get_habit, get_logs, sortByTsDesc,
    insertByTsDesc, successesOf, meanSuccess, streakLoop, make_predictor, List.find?,
    List.filter]

/-- C7: a predict call whose user lookup fails reports the distinct
user-not-found error, and one whose user exists but whose habit lookup
fails reports the distinct habit-not-found error; the two errors differ,
and an error response carries no default probability or message. -/
theorem C7_predict_not_found_errors (keyPresent : Bool) (ext : Except String String)
    (st : AppState) (uid hid : String) (now : Nat) :
    (get_user st uid = none →
      predict keyPresent ext st uid hid now = .error .userNotFound)
    ∧ (∀ user, get_user st uid = some user → get_habit st hid = none →
        predict keyPresent ext st uid hid now = .error .habitNotFound)
    ∧ PredictError.userNotFound ≠ PredictError.habitNotFound := by
  refine ⟨?_, ?_, by decide⟩
  · intro h; unfold predict; rw [h]
  · intro user hu hh; unfold predict; rw [hu, hh]

/-- Witness for C7: on a concrete store, an unknown user id yields the
user-not-found error and an unknown habit id yields the habit-not-found
error. -/
theorem C7_not_found_witness :
    predict false (.error "e") stC7 "nobody" "h1" 0 = .error .userNotFound
    ∧ predict false (.error "e") stC7 "u1" "h1" 0 = .error .habitNotFound :=
  ⟨(C7_predict_not_found_errors false (.error "e") stC7 "nobody" "h1" 0).1 rfl,
   (C7_predict_not_found_errors false (.error "e") stC7 "u1" "h1" 0).2.1
     ⟨"u1", "Ann", "encourager"⟩ rfl rfl⟩

/-- Counterexample for C8: the arithmetic mean the code computes on the
success list 1,0,1,1 is 0.75, not the 0.5 the claim asserts. -/
theorem C8_mean_example_counterexample : ¬ (meanSuccess [1, 0, 1, 1] = 0.5) := by
  norm_num [meanSuccess]

/-- C8 (amended): on every non-empty binary success list, mean_success
is the arithmetic mean of the values, hence lies in the interval from 0
to 1; on 1,0,1,1 it equals 0.75. -/
theorem C8_mean_success_properties (successes : List Nat) (hne : successes ≠ [])
    (hbin : ∀ s ∈ successes, s ≤ 1) :
    meanSuccess successes = (successes.sum : ℚ) / successes.length
    ∧ 0 ≤ meanSuccess successes ∧ meanSuccess successes ≤ 1
    ∧ meanSuccess [1, 0, 1, 1] = 0.75 := by
  have hlen : successes.length ≠ 0 := by simpa using hne
  have heq : meanSuccess successes = (successes.sum : ℚ) / successes.length := by
    unfold meanSuccess; rw [if_neg hlen]
  have hpos : (0 : ℚ) < successes.length := by
    exact_mod_cast Nat.pos_of_ne_zero hlen
  refine ⟨heq, ?_, ?_, by norm_num [meanSuccess]⟩
  · rw [heq]; positivity
  · rw [heq, div_le_one hpos]
    have hsum : successes.sum ≤ successes.length := by
      calc successes.sum ≤ successes.length • 1 := List.sum_le_card_nsmul _ _ hbin
      _ = successes.length := by simp
    exact_mod_cast hsum

/-- Witness for C8: the amended statement applied to the list 1,0,1,1. -/
theorem C8_mean_witness :
    meanSuccess [1, 0, 1, 1]
      = (([1, 0, 1, 1] : List Nat).sum : ℚ) / ([1, 0, 1, 1] : List Nat).length :=
  (C8_mean_success_properties [1, 0, 1, 1] (by decide) (by decide)).1

/-- C9: every successful predict response carries one of the four
constants 0.25, 0.5, 0.55, 0.85, because `make_predictor` returns
absent for every user id on every store, so the trained-model branch is
unreachable and every probability comes from the fallback table or the
cold-start constant. -/
theorem C9_probability_constants (keyPresent : Bool) (ext : Except String String)
    (st : AppState) (uid hid : String) (now : Nat) (r : NudgeOut)
    (h : predict keyPresent ext st uid hid now = .ok r) :
    (r.probability = 0.25 ∨ r.probability = 0.5 ∨ r.probability = 0.55
      ∨ r.probability = 0.85)
    ∧ ∀ (st' : AppState) (u : String), make_predictor st' u = none := by
  refine ⟨?_, fun st' u => rfl⟩
  unfold predict at h
  cases hgu : get_user st uid with
  | none => rw [hgu] at h; simp at h
  | some user =>
    rw [hgu] at h
    cases hgh : get_habit st hid with
    | none => rw [hgh] at h; simp at h
    | some habit =>
      rw [hgh] at h
      cases hl : get_logs st uid hid 200 with
      | nil =>
        rw [hl] at h
        simp only [Except.ok.injEq] at h
        subst h
        norm_num
      | cons first rest =>
        rw [hl] at h
        simp only [make_predictor, Except.ok.injEq] at h
        subst h
        simp only []
        split_ifs <;> norm_num

/-- Witness for C9: the cold-start response on a concrete store carries
one of the four constants. -/
theorem C9_probability_witness :
    rC9.probability = 0.25 ∨ rC9.probability = 0.5 ∨ rC9.probability = 0.55
      ∨ rC9.probability = 0.85 :=
  (C9_probability_constants false (.error "e") stC9 "u1" "h1" 0 rC9 rfl).1

/-- C10: for every updates dictionary, (i) an attribute named by no
entry with a non-None value keeps its prior value; (ii) the changed flag
is set exactly when some entry names an existing attribute with a
non-None value; (iii) `last_updated` is refreshed to now exactly when
that happens, else keeps its prior value; (iv) an entry whose key names
no attribute is silently ignored whatever its value; (v) an entry with
an existing attribute and a non-None value, not overridden later, is
assigned — any attribute name is accepted, there is no allow-list. -/
theorem C10_update_pet_state_semantics (pet : PetState)
    (updates : List (String × Option PVal)) (now : Nat)
    (a : String) (hne : a ≠ "last_updated")
    (hno : ∀ kv ∈ updates, kv.1 = a → kv.2 = none) :
    getPetAttr (update_pet_state pet updates now).1 a = getPetAttr pet a
    ∧ (update_pet_state pet updates now).2
        = updates.any (fun kv => hasPetAttr kv.1 && kv.2.isSome)
    ∧ getPetAttr (update_pet_state pet updates now).1 "last_updated"
        = (if updates.any (fun kv => hasPetAttr kv.1 && kv.2.isSome) then some (PVal.vt now)
           else some pet.last_updated)
    ∧ (∀ k v, hasPetAttr k = false →
        update_pet_state pet ((k, v) :: updates) now = update_pet_state pet updates now)
    ∧ (∀ l₁ k v l₂, updates = l₁ ++ (k, some v) :: l₂ → hasPetAttr k = true →
        k ≠ "last_updated" → (∀ kv ∈ l₂, kv.1 = k → kv.2 = none) →
        getPetAttr (update_pet_state pet updates now).1 k = some v) := by
  rcases hr : applyUpdates (pet, false) updates with ⟨p2, c⟩
  have hupd : update_pet_state pet updates now
      = if c then ({ p2 with last_updated := PVal.vt now }, true) else (p2, c) := by
    unfold update_pet_state
    rw [hr]
  have hch : c = updates.any (fun kv => hasPetAttr kv.1 && kv.2.isSome) := by
    have h0 := applyUpdates_changed updates pet false
    rw [hr] at h0
    simpa using h0
  have hframe : getPetAttr p2 a = getPetAttr pet a := by
    have h0 := applyUpdates_frame updates pet false a hno
    rw [hr] at h0
    exact h0
  refine ⟨?_, ?_, ?_, ?_, ?_⟩
  · cases c with
    | false => simp only [hupd, if_neg Bool.false_ne_true]; exact hframe
    | true =>
      rw [hupd, if_pos rfl, getPetAttr_set_last _ _ _ hne]
      exact hframe
  · cases c with
    | false => simp only [hupd, if_neg Bool.false_ne_true]; exact hch
    | true => rw [hupd, if_pos rfl]; exact hch
  · cases c with
    | false =>
      have hid : applyUpdates (pet, false) updates = (pet, false) := by
        apply applyUpdates_id
        intro kv hm
        by_contra hcon
        push_neg at hcon
        have h1 : hasPetAttr kv.1 = true := by
          cases hb : hasPetAttr kv.1
          · exact absurd hb hcon.1
          · rfl
        have h2 : kv.2.isSome = true := Option.ne_none_iff_isSome.mp hcon.2
        have h3 : updates.any (fun kv => hasPetAttr kv.1 && kv.2.isSome) = true :=
          List.any_eq_true.mpr ⟨kv, hm, by rw [h1, h2]; rfl⟩
        rw [← hch] at h3
        exact Bool.false_ne_true h3
      rw [hr] at hid
      have hp2 : p2 = pet := congrArg Prod.fst hid
      simp only [hupd, if_neg Bool.false_ne_true, ← hch, hp2]
      simp [getPetAttr_last]
    | true =>
      rw [hupd, if_pos rfl, ← hch]
      simp [getPetAttr_last]
  · intro k v hk
    cases v with
    | none =>
      unfold update_pet_state
      rw [show applyUpdates (pet, false) ((k, none) :: updates)
          = applyUpdates (pet, false) updates from by simp [applyUpdates]]
    | some w =>
      unfold update_pet_state
      rw [show applyUpdates (pet, false) ((k, some w) :: updates)
          = applyUpdates (pet, false) updates from by simp [applyUpdates, hk]]
  · intro l₁ k v l₂ hupd2 hk hkne hnol
    have hassign : getPetAttr p2 k = some v := by
      have h0 : getPetAttr (applyUpdates (pet, false) updates).1 k = some v := by
        rw [hupd2, applyUpdates_append]
        rw [show applyUpdates (applyUpdates (pet, false) l₁) ((k, some v) :: l₂)
            = applyUpdates (setPetAttr (applyUpdates (pet, false) l₁).1 k v, true) l₂ from by
          simp [applyUpdates, hk]]
        exact applyUpdates_assign l₂ (applyUpdates (pet, false) l₁).1
          (applyUpdates (pet, false) l₁).2 k v hk hnol
      rw [hr] at h0
      exact h0
    have hctrue : c = true := by
      rw [hch, hupd2]
      refine List.any_eq_true.mpr ⟨(k, some v), by simp, ?_⟩
      rw [hk]
      rfl
    subst hctrue
    rw [hupd, if_pos rfl, getPetAttr_set_last _ _ _ hkne]
    exact hassign

/-- Witness for C10: on a concrete pet and updates dictionary with one
effective assignment, one unrecognized key and one None value, the
unnamed attribute `energy` keeps its prior value. -/
theorem C10_update_witness :
    getPetAttr (update_pet_state petW updatesW 99).1 "energy" = getPetAttr petW "energy" :=
  (C10_update_pet_state_semantics petW updatesW 99 "energy" (by decide) (by decide)).1

end LifeLens
